import Mathlib

/-!
Verification of the incremental, chunked evaluation pipeline of the
`oscanner` repository.

The development shallowly embeds, in Lean, the parts of the source that the
checked properties are about:

* `src/plugins/zgc_ai_native_2026/scan/__init__.py` — the chunk evaluator:
  oracle-response parsing (`_parse_llm_response`), the commit partitioner
  (`_evaluate_engineer_chunked`), the sequential chunk merger
  (`_merge_evaluations`), the parallel merge-input ordering
  (`_evaluate_chunks_parallel`) and the fallback averaging
  (`_simple_average_merge`).
* `src/evaluator/sync_manager.py` — the sync state tracker
  (`get_new_commits`, `sync_incremental`, `merge_commits`).
* `src/evaluator/services/evaluation_service.py` — the incremental merger
  (`evaluate_author_incremental`, `get_empty_evaluation`).

Modelling conventions:

* Python machine floats appear only as intermediate values of
  `int(a / b)` / `int(round(x / 2))` on small non-negative integers; they are
  embedded as exact natural-number arithmetic (floor division, respectively
  round-half-to-even), which agrees with the float computation on the whole
  realistic input range.
* Python `None`-able strings are `Option String`; Python truthiness of a
  string value (`if not s`) is `pyStrTruthy` (both `None` and `""` are falsy).
* The external scoring oracle (`evaluator.evaluate_engineer`) and the external
  commit source (`collector.*`) are parameters of the embedded functions.
* Functions that can raise in Python return `Except`; a total Lean function
  models Python code that cannot raise.
-/

namespace Oscanner

/-! ### Python string primitives

Lean's built-in `String` functions (`toLower`, `trim`, `replace`, `toInt?`)
are position based and do not reduce in the kernel, so the corresponding
Python primitives are embedded directly on the underlying character lists. -/

/-- ASCII lower-casing of one character, as Python `str.lower` does on the
ASCII identifiers the pipeline compares. -/
def charLower (c : Char) : Char :=
  if 'A' ≤ c ∧ c ≤ 'Z' then Char.ofNat (c.toNat + 32) else c

/-- Python `str.lower` (ASCII fragment). -/
def strLower (s : String) : String := ⟨s.data.map charLower⟩

/-- The whitespace characters stripped by Python `str.strip` / skipped by the
JSON reader. -/
def isPySpace (c : Char) : Bool := c = ' ' ∨ c = '\n' ∨ c = '\t' ∨ c = '\r'

/-- Python `str.strip`. -/
def strTrim (s : String) : String :=
  ⟨((s.data.dropWhile isPySpace).reverse.dropWhile isPySpace).reverse⟩

/-- Python truthiness of a nullable string: `None` and `""` are falsy. -/
def pyStrTruthy : Option String → Bool
  | none => false
  | some s => s ≠ ""

/-- Python `a or b` on nullable strings: `a` if truthy, otherwise `b`. -/
def pyOr (a b : Option String) : Option String :=
  if pyStrTruthy a then a else b

/-- Does `pat` occur at the head of `l`? -/
def prefixEq : List Char → List Char → Bool
  | [], _ => true
  | _ :: _, [] => false
  | a :: as, b :: bs => a = b && prefixEq as bs

/-- Does `pat` occur anywhere inside `l`? Used to state that one rationale
text does not occur inside another. -/
def hasSub (pat : List Char) : List Char → Bool
  | [] => prefixEq pat []
  | c :: rest => prefixEq pat (c :: rest) || hasSub pat rest

/-- Fuel-indexed left-to-right non-overlapping replacement, the semantics of
Python `str.replace`. The fuel is the length of the scanned list. -/
def replaceAux (pat rep : List Char) : Nat → List Char → List Char
  | _, [] => []
  | 0, l => l
  | fuel + 1, c :: rest =>
    if prefixEq pat (c :: rest) && !pat.isEmpty then
      rep ++ replaceAux pat rep fuel ((c :: rest).drop pat.length)
    else
      c :: replaceAux pat rep fuel rest

/-- Python `str.replace pat rep` (for non-empty `pat`). -/
def replaceSub (pat rep : List Char) (l : List Char) : List Char :=
  replaceAux pat rep l.length l

/-- Value of a digit string. -/
def digitsVal (ds : List Char) : Nat :=
  ds.foldl (fun a c => a * 10 + (c.toNat - 48)) 0

/-- Python `int(str)` on a stripped, optionally signed digit string; `none`
models the `ValueError` that any other string raises. -/
def pyIntOfString (s : String) : Option Int :=
  let core := fun (cs : List Char) =>
    if cs ≠ [] ∧ cs.all Char.isDigit then some (digitsVal cs) else none
  match (strTrim s).data with
  | '-' :: rest => (core rest).map (fun n => -(n : Int))
  | '+' :: rest => (core rest).map (fun n => (n : Int))
  | cs => (core cs).map (fun n => (n : Int))

/-- Opening brace character (written via its code point, not as text). -/
def lbrace : Char := Char.ofNat 0x7b

/-- Closing brace character. -/
def rbrace : Char := Char.ofNat 0x7d

/-! ### JSON values and `json.loads`

`json.loads` is Python standard library, an external collaborator of the
source. It is modelled here by a concrete reader for the shape the scoring
oracle is asked to produce: one flat object whose values are numbers or
strings. Inputs outside this fragment (nested containers, booleans, `null`,
exponent-form numbers) are reported as unparsable, exactly like malformed
text; no claim below depends on them. Fractional numbers are truncated
toward zero, as the later Python `int(...)` conversion does. -/

inductive JVal where
  | num (n : Int)
  | str (s : String)
deriving DecidableEq, Repr

/-- Skip JSON whitespace. -/
def skipWs (cs : List Char) : List Char := cs.dropWhile isPySpace

/-- Scan a string literal body after its opening quote; a backslash escapes
the next character verbatim. -/
def scanStringLit : List Char → Option (List Char × List Char)
  | [] => none
  | '\\' :: c :: rest => (scanStringLit rest).map (fun p => (c :: p.1, p.2))
  | '"' :: rest => some ([], rest)
  | c :: rest => (scanStringLit rest).map (fun p => (c :: p.1, p.2))

/-- Read a non-empty run of digits. -/
def readDigits (cs : List Char) : Option (Nat × List Char) :=
  let ds := cs.takeWhile Char.isDigit
  if ds.isEmpty then none else some (digitsVal ds, cs.dropWhile Char.isDigit)

/-- Read an unsigned number; a fractional part is consumed and discarded
(truncation toward zero). -/
def readNumMag (cs : List Char) : Option (Nat × List Char) :=
  match readDigits cs with
  | none => none
  | some (n, rest) =>
    match rest with
    | '.' :: r2 =>
      match readDigits r2 with
      | none => none
      | some (_, r3) => some (n, r3)
    | _ => some (n, rest)

/-- Read a possibly negative number. -/
def readNumberVal (cs : List Char) : Option (Int × List Char) :=
  match cs with
  | '-' :: rest => (readNumMag rest).map (fun p => (-(p.1 : Int), p.2))
  | _ => (readNumMag cs).map (fun p => ((p.1 : Int), p.2))

/-- Read one JSON value (string or number). -/
def readValue (cs : List Char) : Option (JVal × List Char) :=
  match skipWs cs with
  | '"' :: rest => (scanStringLit rest).map (fun p => (JVal.str ⟨p.1⟩, p.2))
  | rest => (readNumberVal rest).map (fun p => (JVal.num p.1, p.2))

/-- Read one `"key": value` pair. -/
def readPair (cs : List Char) : Option ((String × JVal) × List Char) :=
  match skipWs cs with
  | '"' :: rest =>
    match scanStringLit rest with
    | none => none
    | some (k, r1) =>
      match skipWs r1 with
      | ':' :: r2 =>
        (readValue r2).map (fun p => ((⟨k⟩, p.1), p.2))
      | _ => none
  | _ => none

/-- Read the members of an object up to its closing brace. -/
def readMembers : Nat → List Char → Option (List (String × JVal) × List Char)
  | 0, _ => none
  | fuel + 1, cs =>
    match readPair cs with
    | none => none
    | some (p, r1) =>
      match skipWs r1 with
      | c :: r2 =>
        if c = ',' then (readMembers fuel r2).map (fun q => (p :: q.1, q.2))
        else if c = rbrace then some ([p], r2)
        else none
      | [] => none

/-- Model of `json.loads` on the flat-object fragment: the whole input must
be one object, with nothing but whitespace around it (Python raises on
trailing garbage). -/
def jsonLoads (s : String) : Option (List (String × JVal)) :=
  match skipWs s.data with
  | c :: rest =>
    if c = lbrace then
      match skipWs rest with
      | d :: r2 =>
        if d = rbrace then
          if (skipWs r2).isEmpty then some [] else none
        else
          match readMembers (rest.length + 1) rest with
          | none => none
          | some (ps, r3) => if (skipWs r3).isEmpty then some ps else none
      | [] => none
    else none
  | [] => none

/-- Python `dict.get` on the decoded object: with duplicate keys the last
occurrence wins, as in a Python dict built by `json.loads`. -/
def pyGet (data : List (String × JVal)) (k : String) : Option JVal :=
  match data with
  | [] => none
  | (k', v) :: rest =>
    match pyGet rest k with
    | some r => some r
    | none => if k' = k then some v else none

/-- Python `int(value)` on a decoded JSON value: numbers are already
truncated, strings go through `int(str)`; `none` models the raised
`ValueError`/`TypeError`. -/
def pyIntOfJVal : JVal → Option Int
  | .num n => some n
  | .str s => pyIntOfString s

/-- Python `str(value)` on a decoded JSON value. -/
def pyStrOfJVal : JVal → String
  | .str s => s
  | .num n => toString n

/-! ### Score vectors

`CommitEvaluatorModerate.dimensions` fixes six numeric dimensions; every
score dict the pipeline builds carries exactly these six keys, an optional
`reasoning` text, and (only after `_merge_evaluations`) a `chunks_merged`
counter. -/

/-- The six fixed dimensions of `self.dimensions`. -/
inductive Dim where
  | ai_fullstack
  | ai_architecture
  | cloud_native
  | open_source
  | intelligent_dev
  | leadership
deriving DecidableEq, Repr

/-- The JSON key of a dimension. -/
def dimKey : Dim → String
  | .ai_fullstack => "ai_fullstack"
  | .ai_architecture => "ai_architecture"
  | .cloud_native => "cloud_native"
  | .open_source => "open_source"
  | .intelligent_dev => "intelligent_dev"
  | .leadership => "leadership"

/-- A score dict: six dimension values, an optional `reasoning` entry and an
optional `chunks_merged` entry (`none` models an absent key). -/
structure Scores where
  ai_fullstack : Nat
  ai_architecture : Nat
  cloud_native : Nat
  open_source : Nat
  intelligent_dev : Nat
  leadership : Nat
  reasoning : Option String
  chunksMerged : Option Nat
deriving DecidableEq, Repr

/-- Value of one dimension of a score dict. -/
def Scores.get (s : Scores) : Dim → Nat
  | .ai_fullstack => s.ai_fullstack
  | .ai_architecture => s.ai_architecture
  | .cloud_native => s.cloud_native
  | .open_source => s.open_source
  | .intelligent_dev => s.intelligent_dev
  | .leadership => s.leadership

/-- A score dict with every dimension set to `v` and no other entries. -/
def constScores (v : Nat) : Scores :=
  { ai_fullstack := v, ai_architecture := v, cloud_native := v,
    open_source := v, intelligent_dev := v, leadership := v,
    reasoning := none, chunksMerged := none }

/-- The all-50 fallback dict `\x7bk: 50 for k in self.dimensions.keys()\x7d`
returned by `_parse_llm_response` when no JSON object can be used; note that
it has no `reasoning` entry. -/
def neutralScores : Scores := constScores 50

/-! ### `_parse_llm_response` (plugin `scan/__init__.py`, lines 568-582) -/

/-- `min(100, max(0, int(v)))`. -/
def clampScore (v : Int) : Nat := (min 100 (max 0 v)).toNat

/-- `_format_reasoning`: unescape literal `\n` sequences, then strip. -/
def formatReasoning (r : String) : String :=
  strTrim ⟨replaceSub "\\n".data "\n".data
    (replaceSub "\\n\\n".data "\n\n".data r.data)⟩

/-- The brace extraction of `_parse_llm_response`:
`start = content.find(lbrace)`, `end = content.rfind(rbrace) + 1`, and the
slice is decoded only when `start >= 0 and end > start`. -/
def extractJson (content : String) : Option (List (String × JVal)) :=
  let cs := content.data
  match cs.findIdx? (· = lbrace),
        (cs.reverse.findIdx? (· = rbrace)).map (fun i => cs.length - 1 - i) with
  | some s, some e =>
    if s < e + 1 then jsonLoads ⟨(cs.drop s).take (e + 1 - s)⟩ else none
  | some _, none => none
  | none, _ => none

/-- `int(data.get(dimKey d, 0))`: an absent key defaults to `0`; `none`
models the exception a non-convertible value raises. -/
def convertDim (data : List (String × JVal)) (d : Dim) : Option Int :=
  pyIntOfJVal ((pyGet data (dimKey d)).getD (JVal.num 0))

/-- The dict-building loop of `_parse_llm_response` on a decoded object:
clamp each dimension to 0-100 with absent keys defaulting to 0, and format
the `reasoning` entry when present; if any dimension value fails integer
conversion the raised exception degrades the whole response to the all-50
dict. -/
def parseDecoded (data : List (String × JVal)) : Scores :=
  match convertDim data .ai_fullstack, convertDim data .ai_architecture,
        convertDim data .cloud_native, convertDim data .open_source,
        convertDim data .intelligent_dev, convertDim data .leadership with
  | some a, some b, some c, some d, some e, some f =>
    { ai_fullstack := clampScore a, ai_architecture := clampScore b,
      cloud_native := clampScore c, open_source := clampScore d,
      intelligent_dev := clampScore e, leadership := clampScore f,
      reasoning := (pyGet data "reasoning").map
        (fun v => formatReasoning (pyStrOfJVal v)),
      chunksMerged := none }
  | _, _, _, _, _, _ => neutralScores

/-- `_parse_llm_response`: extract the outermost braced slice, decode it and
build the score dict; any failure on the way degrades to the all-50 dict
with no reasoning. Total — the Python body never raises. -/
def parseLLMResponse (content : String) : Scores :=
  match extractJson content with
  | none => neutralScores
  | some data => parseDecoded data

/-! ### `_merge_evaluations` (sequential chunk merger, lines 588-596) -/

/-- `int(round((p + n) / 2))` on non-negative integers: Python `round` ties
to the nearest even integer. -/
def roundHalfEvenAvg (p n : Nat) : Nat :=
  if (p + n) % 2 = 0 then (p + n) / 2
  else if ((p + n) / 2) % 2 = 0 then (p + n) / 2 else (p + n) / 2 + 1

/-- `_merge_evaluations(prev, new, chunk_idx)`: each dimension becomes the
rounded pairwise mean; the reasoning is the new chunk's stripped reasoning
when non-empty, otherwise the previous stripped reasoning (never a
concatenation); `chunks_merged` records the chunk index. -/
def mergeEvaluations (prev new : Scores) (chunkIdx : Nat) : Scores :=
  let nr := strTrim (new.reasoning.getD "")
  { ai_fullstack := roundHalfEvenAvg prev.ai_fullstack new.ai_fullstack,
    ai_architecture := roundHalfEvenAvg prev.ai_architecture new.ai_architecture,
    cloud_native := roundHalfEvenAvg prev.cloud_native new.cloud_native,
    open_source := roundHalfEvenAvg prev.open_source new.open_source,
    intelligent_dev := roundHalfEvenAvg prev.intelligent_dev new.intelligent_dev,
    leadership := roundHalfEvenAvg prev.leadership new.leadership,
    reasoning := some (if nr ≠ "" then nr else strTrim (prev.reasoning.getD "")),
    chunksMerged := some chunkIdx }

/-! ### Commit partitioner (`_evaluate_engineer_chunked`, lines 180-189)

`chunks = [commits[i : i + n] for i in range(0, len(commits), n)]`, with
`n = 15` in moderate mode and `20` otherwise. `range` with step `0` raises
in Python, so the partitioner is only defined for positive chunk sizes. -/

/-- Slicing loop, fuel-indexed by the number of remaining elements. -/
def chunkCommitsAux {α : Type} (n : Nat) : Nat → List α → List (List α)
  | 0, _ => []
  | _, [] => []
  | fuel + 1, l => l.take n :: chunkCommitsAux n fuel (l.drop n)

/-- The partitioner: contiguous slices of length `n` (last may be shorter). -/
def chunkCommits {α : Type} (n : Nat) (l : List α) : List (List α) :=
  if n = 0 then [] else chunkCommitsAux n l.length l

/-! ### Parallel merge ordering and `_simple_average_merge`
(lines 263-283 and 345-364)

A parallel run appends `\x7b"chunk_idx": idx, "scores": scores\x7d` records
in completion order, then sorts them by `chunk_idx` before the synthesis
step; a record is modelled as a pair. -/

/-- `chunk_results.sort(key=lambda x: x["chunk_idx"])`. -/
def sortByChunkIdx (rs : List (Nat × Scores)) : List (Nat × Scores) :=
  rs.mergeSort (fun a b => a.1 ≤ b.1)

/-- `_simple_average_merge`: per-dimension arithmetic mean truncated by
`int(...)`, and the non-empty reasonings concatenated with a separator,
labeled by their position in the (filtered) list. -/
def simpleAverageMerge (chunkResults : List (Nat × Scores)) : Scores :=
  match chunkResults with
  | [] => constScores 0
  | _ =>
    let avg := fun (f : Scores → Nat) =>
      (chunkResults.map (fun r => f r.2)).sum / chunkResults.length
    let reasonings :=
      (chunkResults.map (fun r => r.2.reasoning.getD "")).filter (fun s => s ≠ "")
    { ai_fullstack := avg (·.ai_fullstack),
      ai_architecture := avg (·.ai_architecture),
      cloud_native := avg (·.cloud_native),
      open_source := avg (·.open_source),
      intelligent_dev := avg (·.intelligent_dev),
      leadership := avg (·.leadership),
      reasoning := some (if reasonings.isEmpty then "Multiple chunks evaluated."
        else String.intercalate "\n\n---\n\n"
          (reasonings.enum.map
            (fun p => "**Chunk " ++ toString (p.1 + 1) ++ ":**\n" ++ p.2))),
      chunksMerged := none }

/-! ### Sync state tracker (`src/evaluator/sync_manager.py`)

The on-disk state is passed explicitly; the collector is a parameter holding
the remote page this cycle would fetch (`none` models a raised fetch error,
which `get_new_commits` converts to an empty delta) and a per-sha detail
fetcher (`none` models a raised fetch error, which the sync loop skips).
Index entries carry message/author/date metadata in the source; only the
deduplicating `sha` is ever read back, so the index is modelled as the list
of its shas. File writes of individual commit payloads are not observable
state of any checked property and are elided. -/

/-- A commit summary of the remote page (`sha`/`hash` key aliasing, and the
`commit.author.date` field used for the sync boundary). -/
structure RemoteCommit where
  sha : Option String
  hash : Option String
  date : Option String
deriving DecidableEq, Repr

/-- The detailed data of one commit, as far as the sync loop reads it. -/
structure CommitDetail where
  sha : Option String
  hash : Option String
deriving DecidableEq, Repr

/-- One entry of `sync_history`. -/
structure HistEntry where
  syncedAt : String
  commitsAdded : Nat
  lastSha : Option String
deriving DecidableEq, Repr

/-- `sync_state.json`. -/
structure SyncState where
  lastSyncedAt : Option String
  lastCommitSha : Option String
  lastCommitDate : Option String
  totalCommitsFetched : Nat
  syncHistory : List HistEntry
deriving DecidableEq, Repr

/-- The external commit source for one sync cycle. -/
structure Collector where
  page : Option (List RemoteCommit)
  detail : String → Option CommitDetail

/-- `commit.get("sha") or commit.get("hash")`. -/
def RemoteCommit.shaOrHash (c : RemoteCommit) : Option String := pyOr c.sha c.hash

/-- `commit.get("sha") or commit.get("hash")` on detailed data. -/
def CommitDetail.shaOrHash (c : CommitDetail) : Option String := pyOr c.sha c.hash

/-- `_get_commit_date`: the summary's date, with the current time as
fallback. -/
def getCommitDate (c : RemoteCommit) (now : String) : String := c.date.getD now

/-- The boundary scan of `get_new_commits`: the prefix of the newest-first
page strictly before the commit whose sha equals the stored boundary. -/
def newCommitsBefore (lastSha : String) : List RemoteCommit → List RemoteCommit
  | [] => []
  | c :: rest =>
    if c.shaOrHash = some lastSha then []
    else c :: newCommitsBefore lastSha rest

/-- `get_new_commits`: a failed page fetch yields `[]`; with no usable stored
boundary the whole page is new; otherwise the prefix before the boundary. -/
def getNewCommits (state : SyncState) (col : Collector) : List RemoteCommit :=
  match col.page with
  | none => []
  | some remote =>
    if pyStrTruthy state.lastCommitSha then
      newCommitsBefore (state.lastCommitSha.getD "") remote
    else remote

/-- The detail-fetch loop of `sync_incremental`: a commit whose detail fetch
raises is skipped (`continue`); a summary without any sha makes the loop
itself raise (`sha[:8]` on `None`), modelled by `Except.error`. -/
def fetchDetails (col : Collector) :
    List RemoteCommit → Except Unit (List CommitDetail)
  | [] => .ok []
  | c :: rest =>
    match c.shaOrHash with
    | none => .error ()
    | some s =>
      match col.detail s with
      | some d => (fetchDetails col rest).map (fun ds => d :: ds)
      | none => fetchDetails col rest

/-- The dedup loop of `merge_commits`: entries are added for detailed
commits with a truthy sha not yet seen (`seen` starts as the persisted
index and grows within the batch). -/
def mergeNewEntries (seen : List String) : List CommitDetail → List String
  | [] => []
  | d :: rest =>
    match d.shaOrHash with
    | none => mergeNewEntries seen rest
    | some s =>
      if s = "" ∨ s ∈ seen then mergeNewEntries seen rest
      else s :: mergeNewEntries (s :: seen) rest

/-- `merge_commits`: prepend the unique new entries; returns
`(commits_added, new index)`. -/
def mergeCommits (index : List String) (detailed : List CommitDetail) :
    Nat × List String :=
  let fresh := mergeNewEntries (index.filter (fun s => s ≠ "")) detailed
  (fresh.length, fresh ++ index)

/-- `sync_history` trimming: append, then keep the last 50 entries. -/
def trimHistory (h : List HistEntry) (e : HistEntry) : List HistEntry :=
  let h' := h ++ [e]
  if h'.length > 50 then h'.drop (h'.length - 50) else h'

/-- The result dict of `sync_incremental`. -/
structure SyncResult where
  commitsAdded : Nat
  totalCommits : Nat
  status : String
deriving DecidableEq, Repr

/-- Observable outcome of one sync cycle: the returned result, the persisted
sync state and commit index after the cycle, and whether `save_sync_state`
was called at all. -/
structure SyncOutcome where
  result : SyncResult
  state : SyncState
  index : List String
  stateSaved : Bool
deriving DecidableEq, Repr

/-- `sync_incremental`: compute the delta, fetch details (skipping per-commit
failures), and only when at least one detail was fetched merge the index and
advance the boundary to the newest commit of the delta. -/
def syncIncremental (state : SyncState) (index : List String) (col : Collector)
    (now : String) : Except Unit SyncOutcome :=
  match getNewCommits state col with
  | [] =>
    .ok { result := { commitsAdded := 0,
                      totalCommits := state.totalCommitsFetched,
                      status := "up_to_date" },
          state := state, index := index, stateSaved := false }
  | first :: rest =>
    match fetchDetails col (first :: rest) with
    | .error e => .error e
    | .ok detailed =>
      if detailed.isEmpty then
        .ok { result := { commitsAdded := 0,
                          totalCommits := state.totalCommitsFetched,
                          status := "error" },
              state := state, index := index, stateSaved := false }
      else
        let merged := mergeCommits index detailed
        let firstSha := first.shaOrHash
        let state' : SyncState :=
          { lastSyncedAt := some now,
            lastCommitSha := firstSha,
            lastCommitDate := some (getCommitDate first now),
            totalCommitsFetched := state.totalCommitsFetched + merged.1,
            syncHistory := trimHistory state.syncHistory
              { syncedAt := now, commitsAdded := merged.1, lastSha := firstSha } }
        .ok { result := { commitsAdded := merged.1,
                          totalCommits := state.totalCommitsFetched + merged.1,
                          status := "synced" },
              state := state', index := merged.2, stateSaved := true }

/-! ### Incremental merger (`src/evaluator/services/evaluation_service.py`)

`evaluate_author_incremental` filters the repository commits down to the
author, evaluates either all of them (no usable previous evaluation) or only
the ones newer than the previous boundary, and weight-merges the result with
the previous evaluation. The plugin evaluator reached through
`evaluator_factory` is the external scoring oracle, a parameter here.
`evaluator.utils.is_commit_by_author` is not itself under `src/`; it is
embedded from its verbatim copy `_is_commit_by_author` in
`src/evaluator/server.py` (lines 1110-1122). -/

/-- A commit record as the author filter and boundary scan read it: the
`sha`/`hash` aliases, the extraction-format `author` key when it is a plain
string, and the GitHub-format `commit.author.name` (with `none` modelling a
missing key and `some ""` an empty name). -/
structure Commit where
  sha : Option String
  hash : Option String
  author : Option String
  nestedAuthorName : Option String
deriving DecidableEq, Repr

/-- `commit.get("sha") or commit.get("hash")`. -/
def Commit.shaOrHash (c : Commit) : Option String := pyOr c.sha c.hash

/-- `_is_commit_by_author`: case-insensitive match on the string-typed
`author` key, else on a non-empty GitHub-format author name. -/
def isCommitByAuthor (c : Commit) (username : String) : Bool :=
  match c.author with
  | some a => strLower a = strLower username
  | none =>
    match c.nestedAuthorName with
    | some n => n ≠ "" && strLower n = strLower username
    | none => false

/-- The author filter: with a truthy (non-empty) alias list a commit matches
any alias, otherwise it must match the author name. -/
def authorFilter (commits : List Commit) (author : String)
    (aliases : Option (List String)) : List Commit :=
  match aliases with
  | some (a :: rest) =>
    commits.filter (fun c => (a :: rest).any (fun al => isCommitByAuthor c al))
  | _ => commits.filter (fun c => isCommitByAuthor c author)

/-- The `commits_summary` aggregate. -/
structure Summary where
  totalAdditions : Nat
  totalDeletions : Nat
  filesChanged : Nat
  languages : List String
deriving DecidableEq, Repr

/-- The dict returned by the plugin's `evaluate_engineer`, as far as
`evaluate_author_incremental` reads it (missing `files_loaded`, `chunked`,
`chunks_processed` keys are represented by their `.get` defaults `0`,
`False`, `0`). -/
structure OracleEval where
  username : String
  mode : String
  scores : Scores
  commitsSummary : Summary
  filesLoaded : Nat
  chunked : Bool
  chunksProcessed : Nat
deriving DecidableEq, Repr

/-- The external scoring oracle: `evaluate_engineer(commits, max_commits,
use_chunking)`; `none` models a raised exception. -/
def Oracle : Type := List Commit → Nat → Bool → Option OracleEval

/-- The evaluation dict returned by `evaluate_author_incremental`
(`evaluated_at`, a wall-clock timestamp, is elided; a `last_commit_sha`
value of `none` models both a missing key and a `None` value). -/
structure Evaluation where
  username : String
  totalCommitsEvaluated : Nat
  newCommitsCount : Nat
  lastCommitSha : Option String
  scores : Scores
  commitsSummary : Summary
  incremental : Bool
  filesLoaded : Nat
  chunked : Bool
  chunksProcessed : Nat
  mode : String
deriving DecidableEq, Repr

/-- The `HTTPException`s the function can raise: factory not provided
(status 500) and LLM evaluation failed (status 502). -/
inductive EvalError where
  | factoryMissing
  | llmFailed
deriving DecidableEq, Repr

/-- `get_empty_evaluation`: the canonical all-zero result for an author with
no matching commits. -/
def getEmptyEvaluation (username : String) : Evaluation :=
  { username := username,
    totalCommitsEvaluated := 0,
    newCommitsCount := 0,
    lastCommitSha := none,
    scores := { constScores 0 with
                reasoning := some "No commits found for this author." },
    commitsSummary := { totalAdditions := 0, totalDeletions := 0,
                        filesChanged := 0, languages := [] },
    incremental := false,
    filesLoaded := 0,
    chunked := false,
    chunksProcessed := 0,
    mode := "moderate" }

/-- The numeric branch of the weighted score merge: when both values are
truthy (non-zero), `int((pv*pc + nv*nc) / (pc + nc))` — float division then
`int` truncation, i.e. floor division; otherwise whichever value is
non-zero, else 0. -/
def mergeDimVal (pv nv pc nc : Nat) : Nat :=
  if pv ≠ 0 ∧ nv ≠ 0 then (pv * pc + nv * nc) / (pc + nc)
  else if nv ≠ 0 then nv
  else if pv ≠ 0 then pv
  else 0

/-- The `reasoning` branch of the weighted score merge: both present →
new text above, a separator, then the previous text; else the non-empty
one; the key stays absent only when absent on both sides. -/
def mergedReasoning (prevCount newCount : Nat) (pr? nr? : Option String) :
    Option String :=
  match pr?, nr? with
  | none, none => none
  | _, _ => some (
      let pr := pr?.getD ""
      let nr := nr?.getD ""
      if pr ≠ "" ∧ nr ≠ "" then
        "**Recent Activity (" ++ toString newCount ++ " new commits):**\n" ++
          nr ++ "\n\n---\n\n**Previous Assessment (" ++ toString prevCount ++
          " commits):**\n" ++ pr
      else if nr ≠ "" then nr
      else if pr ≠ "" then pr
      else "")

/-- The weighted merge over the union of score keys (every score dict in the
pipeline carries the six dimensions; a `chunks_merged` key present on either
side is merged numerically like any non-`reasoning` key). -/
def mergeServiceScores (prevS newS : Scores) (prevCount newCount : Nat) :
    Scores :=
  { ai_fullstack :=
      mergeDimVal prevS.ai_fullstack newS.ai_fullstack prevCount newCount,
    ai_architecture :=
      mergeDimVal prevS.ai_architecture newS.ai_architecture prevCount newCount,
    cloud_native :=
      mergeDimVal prevS.cloud_native newS.cloud_native prevCount newCount,
    open_source :=
      mergeDimVal prevS.open_source newS.open_source prevCount newCount,
    intelligent_dev :=
      mergeDimVal prevS.intelligent_dev newS.intelligent_dev prevCount newCount,
    leadership :=
      mergeDimVal prevS.leadership newS.leadership prevCount newCount,
    reasoning := mergedReasoning prevCount newCount prevS.reasoning newS.reasoning,
    chunksMerged :=
      match prevS.chunksMerged, newS.chunksMerged with
      | none, none => none
      | pc', nc' =>
        some (mergeDimVal (pc'.getD 0) (nc'.getD 0) prevCount newCount) }

/-- The aggregate merge: sums, and a union of languages capped at 10 (the
Python `set` iteration order is unspecified; the model fixes one — no
checked property depends on it). -/
def mergeSummaries (p n : Summary) : Summary :=
  { totalAdditions := p.totalAdditions + n.totalAdditions,
    totalDeletions := p.totalDeletions + n.totalDeletions,
    filesChanged := p.filesChanged + n.filesChanged,
    languages := ((p.languages ++ n.languages).dedup).take 10 }

/-- The boundary scan over the author's commits: the prefix strictly before
the commit whose sha equals the previous evaluation's boundary. -/
def commitsBeforeSha (lastSha : String) : List Commit → List Commit
  | [] => []
  | c :: rest =>
    if c.shaOrHash = some lastSha then []
    else c :: commitsBeforeSha lastSha rest

/-- Case 1 of `evaluate_author_incremental` (no previous evaluation):
evaluate all author commits with `max_commits=150` and stamp the boundary
and counts onto the oracle's dict. `first :: restAc` is the non-empty
author-filtered commit list. -/
def firstEvaluation (oracle : Oracle) (first : Commit) (restAc : List Commit)
    (useChunking : Bool) : Except EvalError Evaluation :=
  match oracle (first :: restAc) 150 useChunking with
  | none => .error .llmFailed
  | some oe =>
    .ok { username := oe.username,
          totalCommitsEvaluated := min (first :: restAc).length 150,
          newCommitsCount := min (first :: restAc).length 150,
          lastCommitSha := first.shaOrHash,
          scores := oe.scores,
          commitsSummary := oe.commitsSummary,
          incremental := false,
          filesLoaded := oe.filesLoaded,
          chunked := oe.chunked,
          chunksProcessed := oe.chunksProcessed,
          mode := oe.mode }

/-- The self-call `evaluate_author_incremental(commits, author, None,
data_dir, model, use_chunking, api_key)` taken when the previous evaluation
has no usable boundary. The call passes `previous=None` and leaves
`aliases` and `evaluator_factory` at their `None` defaults, so it
re-filters by the bare author name and then — with author commits present —
always stops at the missing-factory check, before any oracle use. -/
def evalFirstPath (commits : List Commit) (author : String)
    (_useChunking : Bool) : Except EvalError Evaluation :=
  match commits.filter (fun c => isCommitByAuthor c author) with
  | [] => .ok (getEmptyEvaluation author)
  | _ :: _ => .error .factoryMissing

/-- `evaluate_author_incremental`: filter by author (or aliases), handle the
empty-author and missing-factory short circuits, then either evaluate from
scratch, fall back to the no-boundary self-call, return the previous
evaluation unchanged when no new commits exist, or evaluate the new commits
and weight-merge. `useChunking` mirrors the `use_chunking` argument, passed
through to the oracle. -/
def evaluateAuthorIncremental (commits : List Commit) (author : String)
    (previous : Option Evaluation) (aliases : Option (List String))
    (factory : Option Oracle) (useChunking : Bool) :
    Except EvalError Evaluation :=
  match authorFilter commits author aliases with
  | [] => .ok (getEmptyEvaluation author)
  | first :: restAc =>
    match factory with
    | none => .error .factoryMissing
    | some oracle =>
      match previous with
      | none => firstEvaluation oracle first restAc useChunking
      | some p =>
        if pyStrTruthy p.lastCommitSha then
          match commitsBeforeSha (p.lastCommitSha.getD "") (first :: restAc) with
          | [] => .ok p
          | n1 :: nrest =>
            match oracle (n1 :: nrest) (n1 :: nrest).length useChunking with
            | none => .error .llmFailed
            | some ne =>
              let prevCount := p.totalCommitsEvaluated
              let newCount := (n1 :: nrest).length
              .ok { username := author,
                    totalCommitsEvaluated := prevCount + newCount,
                    newCommitsCount := newCount,
                    lastCommitSha := first.shaOrHash,
                    scores := mergeServiceScores p.scores ne.scores
                      prevCount newCount,
                    commitsSummary := mergeSummaries p.commitsSummary
                      ne.commitsSummary,
                    incremental := true,
                    filesLoaded := ne.filesLoaded,
                    chunked := ne.chunked,
                    chunksProcessed := ne.chunksProcessed,
                    mode := "moderate" }
        else
          evalFirstPath commits author useChunking

/-! ### Shared helper definitions for the theorems -/

/-- Dimension value of a returned evaluation, `none` on a raised error. -/
def resultDimVal (r : Except EvalError Evaluation) (d : Dim) : Option Nat :=
  match r with
  | .ok e => some (e.scores.get d)
  | .error _ => none

/-- Did the call return an evaluation (as opposed to raising)? -/
def isOkResult (r : Except EvalError Evaluation) : Bool :=
  match r with
  | .ok _ => true
  | .error _ => false

/-- Joining the slices of the fuel-indexed partition loop restores the list
once the fuel covers its length and the chunk size is positive. -/
theorem chunkCommitsAux_join {α : Type} (n : Nat) (hn : n ≠ 0) :
    ∀ (fuel : Nat) (l : List α), l.length ≤ fuel →
      (chunkCommitsAux n fuel l).flatten = l := by
  intro fuel
  induction fuel with
  | zero =>
    intro l hl
    have : l = [] := List.eq_nil_of_length_eq_zero (Nat.le_zero.mp hl)
    subst this
    rfl
  | succ fuel ih =>
    intro l hl
    cases l with
    | nil => rfl
    | cons c t =>
      have hdrop : ((c :: t).drop n).length ≤ fuel := by
        simp only [List.length_drop]
        have := List.length_cons c t ▸ hl
        omega
      calc (chunkCommitsAux n (fuel + 1) (c :: t)).flatten
          = (c :: t).take n ++ (chunkCommitsAux n fuel ((c :: t).drop n)).flatten := by
            rfl
        _ = (c :: t).take n ++ (c :: t).drop n := by rw [ih _ hdrop]
        _ = c :: t := List.take_append_drop n (c :: t)

/-- C6: for every commit list and every positive chunk size, concatenating
the chunks produced by the partitioner in order reconstructs the original
commit list exactly — no commit lost, none duplicated, order unchanged. -/
theorem partition_flatten_eq {α : Type} (n : Nat) (hn : n ≠ 0) (l : List α) :
    (chunkCommits n l).flatten = l := by
  unfold chunkCommits
  rw [if_neg hn]
  exact chunkCommitsAux_join n hn l.length l (Nat.le_refl _)

/-- Witness for C6 at chunk size 2 on a five-commit list (the moderate-mode
size 15 behaves identically). -/
theorem partition_flatten_eq_witness :
    (2 : Nat) ≠ 0 ∧
      (chunkCommits 2 ["S4", "S3", "S2", "S1", "S0"]).flatten =
        ["S4", "S3", "S2", "S1", "S0"] :=
  ⟨by decide, partition_flatten_eq 2 (by decide) ["S4", "S3", "S2", "S1", "S0"]⟩

/-- C7: re-running an incremental sync when the newest commit of the remote
page equals the stored `last_commit_sha` returns `commits_added = 0` with
status `up_to_date`, and neither writes the sync-state file nor changes the
persisted state or commit index. -/
theorem sync_up_to_date_no_write (state : SyncState) (index : List String)
    (col : Collector) (now : String) (c : RemoteCommit)
    (rest : List RemoteCommit) (s : String)
    (hsha : state.lastCommitSha = some s) (hs : s ≠ "")
    (hpage : col.page = some (c :: rest)) (hhead : c.shaOrHash = some s) :
    syncIncremental state index col now =
      .ok { result := { commitsAdded := 0,
                        totalCommits := state.totalCommitsFetched,
                        status := "up_to_date" },
            state := state, index := index, stateSaved := false } := by
  have htr : pyStrTruthy state.lastCommitSha = true := by
    rw [hsha]; simp [pyStrTruthy, hs]
  have hdelta : getNewCommits state col = [] := by
    simp only [getNewCommits, hpage, htr, if_true]
    rw [hsha]
    simp [newCommitsBefore, hhead]
  unfold syncIncremental
  rw [hdelta]

/-- Witness for C7: a concrete three-commit history whose page head matches
the stored boundary. -/
theorem sync_up_to_date_no_write_witness :
    syncIncremental
        { lastSyncedAt := some "T0", lastCommitSha := some "S0",
          lastCommitDate := some "D0", totalCommitsFetched := 3,
          syncHistory := [] }
        ["S0", "Sx", "Sy"]
        { page := some [{ sha := some "S0", hash := none, date := some "D0" }],
          detail := fun _ => none }
        "T1" =
      .ok { result := { commitsAdded := 0, totalCommits := 3,
                        status := "up_to_date" },
            state := { lastSyncedAt := some "T0", lastCommitSha := some "S0",
                       lastCommitDate := some "D0", totalCommitsFetched := 3,
                       syncHistory := [] },
            index := ["S0", "Sx", "Sy"], stateSaved := false } :=
  sync_up_to_date_no_write _ _ _ _
    { sha := some "S0", hash := none, date := some "D0" } [] "S0"
    rfl (by decide) rfl (by decide)

/-- When the detail fetch of every commit of a batch fails, the fetch loop
returns successfully with an empty list (each failure is skipped). -/
theorem fetchDetails_all_fail (col : Collector) :
    ∀ l : List RemoteCommit,
      (∀ c ∈ l, ∃ s, c.shaOrHash = some s ∧ col.detail s = none) →
      fetchDetails col l = .ok [] := by
  intro l
  induction l with
  | nil => intro _; rfl
  | cons c t ih =>
    intro h
    obtain ⟨s, hs, hd⟩ := h c (List.mem_cons_self c t)
    have ht := ih (fun c' hc' => h c' (List.mem_cons_of_mem c hc'))
    simp only [fetchDetails, hs, hd, ht]

/-- C2 (amended): the persisted sync boundary is left untouched only when
*no* commit of the delta had its detail fetched successfully; whenever the
cycle writes the state at all, `last_commit_sha` advances to the newest
commit of the delta, even if the detail fetch of some commits (including
that newest one) failed — those commits are skipped, not retried. -/
theorem sync_partial_failure_boundary (state : SyncState) (index : List String)
    (col : Collector) (now : String) (first : RemoteCommit)
    (rest : List RemoteCommit)
    (hdelta : getNewCommits state col = first :: rest) :
    ((∀ c ∈ first :: rest, ∃ s, c.shaOrHash = some s ∧ col.detail s = none) →
      syncIncremental state index col now =
        .ok { result := { commitsAdded := 0,
                          totalCommits := state.totalCommitsFetched,
                          status := "error" },
              state := state, index := index, stateSaved := false }) ∧
    (∀ o, syncIncremental state index col now = .ok o → o.stateSaved = true →
      o.state.lastCommitSha = first.shaOrHash) := by
  constructor
  · intro hall
    have hfd := fetchDetails_all_fail col (first :: rest) hall
    simp only [syncIncremental, hdelta, hfd, List.isEmpty_nil, if_pos]
  · intro o ho hsaved
    cases hfd : fetchDetails col (first :: rest) with
    | error e =>
      simp only [syncIncremental, hdelta, hfd] at ho
      exact absurd ho (by simp)
    | ok detailed =>
      simp only [syncIncremental, hdelta, hfd] at ho
      by_cases hde : detailed.isEmpty
      · rw [if_pos hde] at ho
        have := (Except.ok.injEq _ _).mp ho
        subst this
        simp at hsaved
      · rw [if_neg hde] at ho
        have := (Except.ok.injEq _ _).mp ho
        subst this
        rfl

/-- Witness for C2 (amended): a delta of one commit whose detail fetch
fails; the state is returned unchanged with status `error` and no write. -/
theorem sync_partial_failure_boundary_witness :
    syncIncremental
        { lastSyncedAt := none, lastCommitSha := some "S0",
          lastCommitDate := none, totalCommitsFetched := 1, syncHistory := [] }
        ["S0"]
        { page := some [{ sha := some "S1", hash := none, date := some "D1" },
                        { sha := some "S0", hash := none, date := some "D0" }],
          detail := fun _ => none }
        "T1" =
      .ok { result := { commitsAdded := 0, totalCommits := 1,
                        status := "error" },
            state := { lastSyncedAt := none, lastCommitSha := some "S0",
                       lastCommitDate := none, totalCommitsFetched := 1,
                       syncHistory := [] },
            index := ["S0"], stateSaved := false } :=
  (sync_partial_failure_boundary _ _ _ _
      { sha := some "S1", hash := none, date := some "D1" } [] (by decide)).1
    (by
      intro c hc
      simp only [List.mem_singleton] at hc
      subst hc
      exact ⟨"S1", rfl, rfl⟩)

/-- Counterexample to C2 as stated: a delta of two commits in which the
detail fetch of the newest commit `S2` fails while `S1` succeeds. The claim
says the boundary must stay untouched; the code merges the one fetched
commit, writes the state, and advances `last_commit_sha` to `S2` — whose
detail was never fetched and is never retried. -/
theorem sync_partial_failure_counterexample :
    syncIncremental
        { lastSyncedAt := none, lastCommitSha := some "S0",
          lastCommitDate := none, totalCommitsFetched := 1, syncHistory := [] }
        ["S0"]
        { page := some [{ sha := some "S2", hash := none, date := some "D2" },
                        { sha := some "S1", hash := none, date := some "D1" },
                        { sha := some "S0", hash := none, date := some "D0" }],
          detail := fun s =>
            if s = "S1" then some { sha := some "S1", hash := none } else none }
        "T1" =
      .ok { result := { commitsAdded := 1, totalCommits := 2,
                        status := "synced" },
            state := { lastSyncedAt := some "T1", lastCommitSha := some "S2",
                       lastCommitDate := some "D2", totalCommitsFetched := 2,
                       syncHistory := [{ syncedAt := "T1", commitsAdded := 1,
                                         lastSha := some "S2" }] },
            index := ["S1", "S0"], stateSaved := true } := by
  rfl

/-- C8 (amended): for every oracle response string from which no JSON object
can be parsed, the response parser returns the neutral score vector with all
six dimensions equal to 50 and *no* reasoning entry attached, and never
raises (the embedded parser is a total function). -/
theorem parse_failure_neutral (content : String)
    (h : extractJson content = none) :
    parseLLMResponse content = neutralScores := by
  unfold parseLLMResponse
  rw [h]

/-- Witness for C8 on a concrete brace-free response. -/
theorem parse_failure_neutral_witness :
    extractJson "The model produced no structured output." = none ∧
      parseLLMResponse "The model produced no structured output." =
        neutralScores :=
  ⟨by decide, parse_failure_neutral _ (by decide)⟩

/-- Counterexample to C8 as stated: the claim says the degraded result comes
*together with an explanatory rationale*, but the fallback dict
`\x7bk: 50 for k in self.dimensions.keys()\x7d` carries no reasoning entry
at all. -/
theorem parse_failure_no_rationale_counterexample :
    parseLLMResponse "Sorry, I could not score this engineer." =
        neutralScores ∧
      (parseLLMResponse "Sorry, I could not score this engineer.").reasoning =
        none := by
  constructor <;> decide

/-- Each clamped dimension value is at most 100. -/
theorem clampScore_le_100 (v : Int) : clampScore v ≤ 100 := by
  unfold clampScore
  omega

/-- C10 (amended): every dimension value produced by the response parser is
an integer in 0..100 (out-of-range oracle values are clamped to the
bounds); and whenever the extracted JSON object decodes and every present
dimension value converts to an integer, a dimension key absent from the
object is scored 0 — the neutral 50 appears for an absent key only when the
response as a whole degrades (see the counterexample). -/
theorem parse_range_and_absent_key :
    (∀ (content : String) (d : Dim),
        (parseLLMResponse content).get d ≤ 100) ∧
    (∀ (content : String) (data : List (String × JVal)) (d : Dim),
        extractJson content = some data →
        (∀ d' : Dim, (convertDim data d').isSome) →
        pyGet data (dimKey d) = none →
        (parseLLMResponse content).get d = 0) := by
  constructor
  · intro content d
    unfold parseLLMResponse
    cases hex : extractJson content with
    | none => cases d <;> decide
    | some data =>
      show (parseDecoded data).get d ≤ 100
      unfold parseDecoded
      split
      · cases d <;> exact clampScore_le_100 _
      · cases d <;> decide
  · intro content data d hex hconv hget
    have hd0 : convertDim data d = some 0 := by
      unfold convertDim
      rw [hget]
      rfl
    unfold parseLLMResponse
    rw [hex]
    show (parseDecoded data).get d = 0
    unfold parseDecoded
    obtain ⟨a, h1⟩ := Option.isSome_iff_exists.mp (hconv .ai_fullstack)
    obtain ⟨b, h2⟩ := Option.isSome_iff_exists.mp (hconv .ai_architecture)
    obtain ⟨c, h3⟩ := Option.isSome_iff_exists.mp (hconv .cloud_native)
    obtain ⟨e, h4⟩ := Option.isSome_iff_exists.mp (hconv .open_source)
    obtain ⟨f, h5⟩ := Option.isSome_iff_exists.mp (hconv .intelligent_dev)
    obtain ⟨g, h6⟩ := Option.isSome_iff_exists.mp (hconv .leadership)
    rw [h1, h2, h3, h4, h5, h6]
    cases d with
    | ai_fullstack =>
      have : a = 0 := by rw [hd0] at h1; exact (Option.some.injEq _ _).mp h1.symm
      subst this; rfl
    | ai_architecture =>
      have : b = 0 := by rw [hd0] at h2; exact (Option.some.injEq _ _).mp h2.symm
      subst this; rfl
    | cloud_native =>
      have : c = 0 := by rw [hd0] at h3; exact (Option.some.injEq _ _).mp h3.symm
      subst this; rfl
    | open_source =>
      have : e = 0 := by rw [hd0] at h4; exact (Option.some.injEq _ _).mp h4.symm
      subst this; rfl
    | intelligent_dev =>
      have : f = 0 := by rw [hd0] at h5; exact (Option.some.injEq _ _).mp h5.symm
      subst this; rfl
    | leadership =>
      have : g = 0 := by rw [hd0] at h6; exact (Option.some.injEq _ _).mp h6.symm
      subst this; rfl

/-- Witness for C10: a response carrying only `ai_fullstack` keeps that
value in range and scores the absent `leadership` key 0. -/
theorem parse_range_and_absent_key_witness :
    (parseLLMResponse "\x7b\"ai_fullstack\": 7\x7d").get .ai_fullstack ≤ 100 ∧
      (parseLLMResponse "\x7b\"ai_fullstack\": 7\x7d").get .leadership = 0 :=
  ⟨parse_range_and_absent_key.1 _ _,
   parse_range_and_absent_key.2 "\x7b\"ai_fullstack\": 7\x7d"
     [("ai_fullstack", JVal.num 7)] .leadership (by decide)
     (fun d' => by cases d' <;> decide) (by decide)⟩

/-- Counterexample to C10 as stated: in the response
`\x7b"ai_fullstack": "x"\x7d` the key `ai_architecture` is absent from the
extracted JSON object, yet it is scored 50, not 0 — the unconvertible value
of `ai_fullstack` degrades the whole response to the neutral dict. -/
theorem parse_absent_key_counterexample :
    extractJson "\x7b\"ai_fullstack\": \"x\"\x7d" =
        some [("ai_fullstack", JVal.str "x")] ∧
      pyGet [("ai_fullstack", JVal.str "x")] "ai_architecture" = none ∧
      (parseLLMResponse "\x7b\"ai_fullstack\": \"x\"\x7d").get
          .ai_architecture = 50 := by
  refine ⟨by decide, by decide, by decide⟩

/-- Each dimension of a sequential chunk merge is the rounded pairwise mean
of the accumulated and the new value. -/
theorem get_mergeEvaluations (prev new : Scores) (idx : Nat) (d : Dim) :
    (mergeEvaluations prev new idx).get d =
      roundHalfEvenAvg (prev.get d) (new.get d) := by
  cases d <;> rfl

/-- C4 (amended): a sequential chunk-merge step sets each numeric dimension
to the pairwise mean of the accumulated and the new value — exactly when the
sum is even, and otherwise rounded to the nearest integer (ties to even, as
Python `round` does, so always within 1/2 of the true mean) — and sets the
rationale to the *new* chunk's stripped rationale when it is non-empty,
otherwise keeping the previous stripped rationale; the two rationales are
never concatenated. -/
theorem sequential_merge_behavior (prev new : Scores) (idx : Nat) (d : Dim) :
    ((prev.get d + new.get d) % 2 = 0 →
      (mergeEvaluations prev new idx).get d =
        (prev.get d + new.get d) / 2) ∧
    (prev.get d + new.get d ≤ 2 * (mergeEvaluations prev new idx).get d + 1 ∧
      2 * (mergeEvaluations prev new idx).get d ≤ prev.get d + new.get d + 1) ∧
    (mergeEvaluations prev new idx).reasoning =
      some (if strTrim (new.reasoning.getD "") ≠ ""
            then strTrim (new.reasoning.getD "")
            else strTrim (prev.reasoning.getD "")) := by
  rw [get_mergeEvaluations]
  refine ⟨fun he => ?_, ⟨?_, ?_⟩, rfl⟩
  · unfold roundHalfEvenAvg
    rw [if_pos he]
  · unfold roundHalfEvenAvg
    split
    · omega
    · split <;> omega
  · unfold roundHalfEvenAvg
    split
    · omega
    · split <;> omega

/-- Witness for C4 at an even-sum dimension: values 10 and 20 merge to 15. -/
theorem sequential_merge_behavior_witness :
    ((constScores 10).get .cloud_native + (constScores 20).get .cloud_native) %
        2 = 0 ∧
      (mergeEvaluations (constScores 10) (constScores 20) 3).get
          .cloud_native =
        ((constScores 10).get .cloud_native +
            (constScores 20).get .cloud_native) / 2 :=
  ⟨by decide,
   (sequential_merge_behavior (constScores 10) (constScores 20) 3
       .cloud_native).1 (by decide)⟩

/-- Counterexample to C4 as stated: the claim says the merged rationale is
the concatenation of both rationales with a recent-vs-previous separator,
but `_merge_evaluations` keeps only the new chunk's rationale — the previous
rationale text does not occur anywhere in the merged rationale. -/
theorem sequential_merge_rationale_counterexample :
    (mergeEvaluations
          { constScores 60 with reasoning := some "Earlier chunk evidence." }
          { constScores 61 with reasoning := some "Latest chunk evidence." }
          2).reasoning = some "Latest chunk evidence." ∧
      hasSub "Earlier chunk evidence.".data "Latest chunk evidence.".data =
        false := by
  constructor <;> decide

/-- The sort of the parallel merge input is a permutation of its input. -/
theorem sortByChunkIdx_perm (rs : List (Nat × Scores)) :
    List.Perm (sortByChunkIdx rs) rs :=
  List.mergeSort_perm rs _

/-- The sort of the parallel merge input is sorted by chunk index. -/
theorem sortByChunkIdx_sorted (rs : List (Nat × Scores)) :
    List.Sorted (fun a b : Nat × Scores => a.1 ≤ b.1) (sortByChunkIdx rs) := by
  have h := @List.sorted_mergeSort (Nat × Scores)
    (fun a b => decide (a.1 ≤ b.1))
    (fun a b c hab hbc => by simp only [decide_eq_true_eq] at *; omega)
    (fun a b => by
      simp only [Bool.or_eq_true, decide_eq_true_eq]
      exact Nat.le_total a.1 b.1)
    rs
  simpa [List.Sorted, sortByChunkIdx] using h

/-- C9: two parallel runs over the same chunk evaluations that differ only
in completion order produce the same merge input after the re-sort by chunk
index (chunk indices are pairwise distinct, they enumerate the chunks), and
hence the identical fallback per-dimension average result. -/
theorem parallel_merge_order_invariance
    (canonical rsA rsB : List (Nat × Scores))
    (hA : List.Perm rsA canonical) (hB : List.Perm rsB canonical)
    (hnd : canonical.Pairwise (fun a b => a.1 ≠ b.1)) :
    sortByChunkIdx rsA = sortByChunkIdx rsB ∧
      simpleAverageMerge (sortByChunkIdx rsA) =
        simpleAverageMerge (sortByChunkIdx rsB) := by
  have hperm : List.Perm (sortByChunkIdx rsA) (sortByChunkIdx rsB) :=
    ((sortByChunkIdx_perm rsA).trans (hA.trans hB.symm)).trans
      (sortByChunkIdx_perm rsB).symm
  have hndA : (sortByChunkIdx rsA).Pairwise (fun a b => a.1 ≠ b.1) :=
    (List.Perm.pairwise_iff (fun h => Ne.symm h)
        (sortByChunkIdx_perm rsA)).mpr
      ((List.Perm.pairwise_iff (fun h => Ne.symm h) hA).mpr hnd)
  have hndB : (sortByChunkIdx rsB).Pairwise (fun a b => a.1 ≠ b.1) :=
    (List.Perm.pairwise_iff (fun h => Ne.symm h)
        (sortByChunkIdx_perm rsB)).mpr
      ((List.Perm.pairwise_iff (fun h => Ne.symm h) hB).mpr hnd)
  have hltA : List.Sorted (fun a b : Nat × Scores => a.1 < b.1)
      (sortByChunkIdx rsA) :=
    List.Pairwise.imp (fun h => lt_of_le_of_ne h.1 h.2)
      ((sortByChunkIdx_sorted rsA).and hndA)
  have hltB : List.Sorted (fun a b : Nat × Scores => a.1 < b.1)
      (sortByChunkIdx rsB) :=
    List.Pairwise.imp (fun h => lt_of_le_of_ne h.1 h.2)
      ((sortByChunkIdx_sorted rsB).and hndB)
  have hanti : IsAntisymm (Nat × Scores) (fun a b => a.1 < b.1) :=
    ⟨fun a b h h' => absurd h' (Nat.lt_asymm h)⟩
  have heq : sortByChunkIdx rsA = sortByChunkIdx rsB :=
    @List.eq_of_perm_of_sorted _ _ hanti _ _ hperm hltA hltB
  exact ⟨heq, by rw [heq]⟩

/-- Witness for C9: two completion orders of the same two chunk results. -/
theorem parallel_merge_order_invariance_witness :
    sortByChunkIdx [(1, constScores 10), (2, constScores 20)] =
        sortByChunkIdx [(2, constScores 20), (1, constScores 10)] ∧
      simpleAverageMerge
          (sortByChunkIdx [(1, constScores 10), (2, constScores 20)]) =
        simpleAverageMerge
          (sortByChunkIdx [(2, constScores 20), (1, constScores 10)]) :=
  parallel_merge_order_invariance
    [(1, constScores 10), (2, constScores 20)]
    [(1, constScores 10), (2, constScores 20)]
    [(2, constScores 20), (1, constScores 10)]
    (by decide) (by decide) (by decide)

/-! ### Concrete fixtures for the incremental-merger claims -/

/-- An empty aggregate summary. -/
def zeroSummary : Summary :=
  { totalAdditions := 0, totalDeletions := 0, filesChanged := 0,
    languages := [] }

/-- A commit authored by `alice` with the given sha. -/
def mkAliceCommit (s : String) : Commit :=
  { sha := some s, hash := none, author := some "alice",
    nestedAuthorName := none }

/-- A cached previous evaluation: 10 commits, every dimension 80, boundary
at `S0`. -/
def prevEval80 : Evaluation :=
  { username := "alice", totalCommitsEvaluated := 10, newCommitsCount := 10,
    lastCommitSha := some "S0",
    scores := { constScores 80 with reasoning := some "Prior assessment." },
    commitsSummary := zeroSummary, incremental := false, filesLoaded := 0,
    chunked := false, chunksProcessed := 0, mode := "moderate" }

/-- A fixed oracle answer: every dimension 40. -/
def oracleEval40 : OracleEval :=
  { username := "alice", mode := "moderate",
    scores := { constScores 40 with reasoning := some "New batch." },
    commitsSummary := zeroSummary, filesLoaded := 0, chunked := false,
    chunksProcessed := 0 }

/-- An oracle that always answers `oracleEval40`. -/
def oracle40 : Oracle := fun _ _ _ => some oracleEval40

/-- A legacy cached evaluation lacking any `last_commit_sha` boundary. -/
def prevNoSha : Evaluation :=
  { username := "alice", totalCommitsEvaluated := 5, newCommitsCount := 5,
    lastCommitSha := none,
    scores := { constScores 70 with reasoning := some "Legacy cache." },
    commitsSummary := zeroSummary, incremental := false, filesLoaded := 0,
    chunked := false, chunksProcessed := 0, mode := "moderate" }

/-- Each dimension of the service-level weighted merge is `mergeDimVal` of
the two values and the two commit counts. -/
theorem get_mergeServiceScores (prevS newS : Scores) (pc nc : Nat) (d : Dim) :
    (mergeServiceScores prevS newS pc nc).get d =
      mergeDimVal (prevS.get d) (newS.get d) pc nc := by
  cases d <;> rfl

/-- C1 (amended): when a previous evaluation with a usable boundary is
merged with a fresh evaluation of the non-empty new-commit delta, every
numeric dimension on which both scores are non-zero becomes
`(prevScore*prevCount + newScore*newCount) / (prevCount + newCount)` rounded
*down* (Python `int(...)` truncation, not `round`). -/
theorem weighted_merge_floor
    (commits : List Commit) (author : String) (p : Evaluation)
    (aliases : Option (List String)) (oracle : Oracle) (uc : Bool)
    (s : String) (first : Commit) (restAc : List Commit)
    (n1 : Commit) (nrest : List Commit) (ne' : OracleEval) (d : Dim)
    (hsha : p.lastCommitSha = some s) (hs : s ≠ "")
    (hac : authorFilter commits author aliases = first :: restAc)
    (hnc : commitsBeforeSha s (first :: restAc) = n1 :: nrest)
    (ho : oracle (n1 :: nrest) (n1 :: nrest).length uc = some ne')
    (hpv : p.scores.get d ≠ 0) (hnv : ne'.scores.get d ≠ 0) :
    resultDimVal
        (evaluateAuthorIncremental commits author (some p) aliases
          (some oracle) uc) d =
      some ((p.scores.get d * p.totalCommitsEvaluated +
              ne'.scores.get d * (n1 :: nrest).length) /
            (p.totalCommitsEvaluated + (n1 :: nrest).length)) := by
  have htr : pyStrTruthy p.lastCommitSha = true := by
    rw [hsha]; simp [pyStrTruthy, hs]
  have hgd : p.lastCommitSha.getD "" = s := by rw [hsha]; rfl
  simp only [evaluateAuthorIncremental, hac, htr, if_true, hgd, hnc, ho]
  simp only [resultDimVal, get_mergeServiceScores]
  unfold mergeDimVal
  rw [if_pos ⟨hpv, hnv⟩]

/-- Witness for C1 (amended): one new commit against the 10-commit cache,
`(80*10 + 40*1) / 11 = 76`. -/
theorem weighted_merge_floor_witness :
    resultDimVal
        (evaluateAuthorIncremental [mkAliceCommit "S1", mkAliceCommit "S0"]
          "alice" (some prevEval80) none (some oracle40) true)
        .ai_fullstack = some 76 :=
  weighted_merge_floor [mkAliceCommit "S1", mkAliceCommit "S0"] "alice"
    prevEval80 none oracle40 true "S0" (mkAliceCommit "S1")
    [mkAliceCommit "S0"] (mkAliceCommit "S1") [] oracleEval40 .ai_fullstack
    rfl (by decide) (by decide) (by decide) rfl (by decide) (by decide)

/-- Counterexample to C1 as stated: the spec's own example
`prev = (80, 10)`, `new = (40, 5)` must yield `round(1000/15) = 67`, but the
code computes `int(1000/15) = 66`. -/
theorem weighted_merge_truncation_counterexample :
    resultDimVal
        (evaluateAuthorIncremental
          [mkAliceCommit "S5", mkAliceCommit "S4", mkAliceCommit "S3",
           mkAliceCommit "S2", mkAliceCommit "S1", mkAliceCommit "S0"]
          "alice" (some prevEval80) none (some oracle40) true)
        .ai_fullstack = some 66 := by
  decide

/-- C3: with commits present, an evaluator factory provided, and a previous
evaluation that lacks a usable `last_commit_sha`, the self-call drops the
`evaluator_factory` (and `aliases`) arguments, so the function raises
HTTP 500 `Evaluator factory not provided` instead of degenerating to the
documented first-evaluation branch — which, as the second conjunct shows,
succeeds on the very same inputs when `previous` is `None`. -/
theorem missing_boundary_drops_factory :
    evaluateAuthorIncremental [mkAliceCommit "S1"] "alice" (some prevNoSha)
        none (some oracle40) true = .error .factoryMissing ∧
      isOkResult (evaluateAuthorIncremental [mkAliceCommit "S1"] "alice" none
        none (some oracle40) true) = true := by
  constructor <;> rfl

/-- C5: from one returned evaluation to the next — previous evaluation with
a usable boundary, author still has matching commits — the
`total_commits_evaluated` of the returned evaluation never decreases: a
cycle with no new commits returns the previous evaluation unchanged, and a
merge adds the new-commit count. -/
theorem total_commits_monotonic
    (commits : List Commit) (author : String) (p : Evaluation)
    (aliases : Option (List String)) (oracle : Oracle) (uc : Bool)
    (e : Evaluation)
    (htr : pyStrTruthy p.lastCommitSha = true)
    (hne : authorFilter commits author aliases ≠ [])
    (hok : evaluateAuthorIncremental commits author (some p) aliases
      (some oracle) uc = .ok e) :
    p.totalCommitsEvaluated ≤ e.totalCommitsEvaluated := by
  cases hac : authorFilter commits author aliases with
  | nil => exact absurd hac hne
  | cons first restAc =>
    simp only [evaluateAuthorIncremental, hac, htr, if_true] at hok
    split at hok
    · have hpe := (Except.ok.injEq _ _).mp hok
      exact hpe ▸ Nat.le_refl _
    · split at hok
      · exact absurd hok (by simp)
      · have hpe := (Except.ok.injEq _ _).mp hok
        subst hpe
        exact Nat.le_add_right _ _

/-- Witness for C5: merging one new commit on top of the 10-commit cache
returns 11 evaluated commits, not fewer. -/
theorem total_commits_monotonic_witness :
    prevEval80.totalCommitsEvaluated ≤
      (11 : Nat) :=
  total_commits_monotonic [mkAliceCommit "S1", mkAliceCommit "S0"] "alice"
    prevEval80 none oracle40 true
    { username := "alice", totalCommitsEvaluated := 11, newCommitsCount := 1,
      lastCommitSha := some "S1",
      scores := { constScores 76 with
                  reasoning := some ("**Recent Activity (1 new commits):**\n" ++
                    "New batch.\n\n---\n\n" ++
                    "**Previous Assessment (10 commits):**\n" ++
                    "Prior assessment.") },
      commitsSummary := zeroSummary, incremental := true, filesLoaded := 0,
      chunked := false, chunksProcessed := 0, mode := "moderate" }
    rfl (by decide) rfl

end Oscanner
